import Mathlib

/-
Verification development for the I-MusicExtractor repository.

The Python source is shallowly embedded: pure string manipulation is
translated to functions on `List Char` / `String`, the MusicBrainz /
Last.fm / Wikipedia / DBpedia resolution pipelines are translated to
functions over explicit network-environment values (each HTTP interaction
is a value of `NetResp`, where `exn` models `requests.get` raising and a
parse error of `.json()` is an `Except.error` body), and the stateful
main loop is translated to an explicit fold over a run state that records
the filesystem actions the code performs.The Python `try/except` blocks
are modelled with `Except Unit`: a computation inside a `try` body runs in
`Except`, and the enclosing handler maps `.error` to the handler result.
-/

/-! ## String helpers (Python str operations used by the source) -/

/-- Python `needle in hay` (substring containment), on character lists. -/
def containsSub (hay pat : List Char) : Bool :=
  match hay with
  | [] => pat.isEmpty
  | _ :: t => pat.isPrefixOf hay || containsSub t pat

/-- Python `s.replace(pat, "")`: remove every non-overlapping occurrence of
`pat`, scanning left to right.  For `pat = []` Python returns `s` unchanged
(when the replacement is empty), which the first equation mirrors. -/
def removeAll : List Char → List Char → List Char
  | s, [] => s
  | [], _ :: _ => []
  | c :: t, p :: q =>
    if (p :: q).isPrefixOf (c :: t) then removeAll (t.drop q.length) (p :: q)
    else c :: removeAll t (p :: q)
termination_by s _ => s.length
decreasing_by
  all_goals simp_wf
  all_goals omega

/-- Python `s.lower()` (ASCII-faithful). -/
def lowerL (s : List Char) : List Char := s.map Char.toLower

/-- Python `s.strip()`: drop whitespace from both ends. -/
def stripL (s : List Char) : List Char :=
  ((s.dropWhile Char.isWhitespace).reverse.dropWhile Char.isWhitespace).reverse

/-- Python `s.strip(cs)`: drop characters belonging to `cs` from both ends. -/
def stripChars (s : List Char) (cs : List Char) : List Char :=
  ((s.dropWhile (· ∈ cs)).reverse.dropWhile (· ∈ cs)).reverse

/-- Python `s.split(pat)[-1]` for a nonempty pattern: the suffix of `s` after
the last match of the left-to-right non-overlapping scan; `none` when `pat`
does not occur (or is empty). -/
def afterLastScan? : List Char → List Char → Option (List Char)
  | _, [] => none
  | [], _ :: _ => none
  | c :: t, p :: q =>
    if (p :: q).isPrefixOf (c :: t) then
      some ((afterLastScan? (t.drop q.length) (p :: q)).getD (t.drop q.length))
    else afterLastScan? t (p :: q)
termination_by s _ => s.length
decreasing_by
  all_goals simp_wf
  all_goals omega

/-- Python `s.split('/')[-1]`: the suffix after the last occurrence of a
single character. -/
def afterLastChar (c : Char) (s : List Char) : List Char :=
  (s.reverse.takeWhile (fun x => x ≠ c)).reverse

/-! ## sanitize_filename (source lines 214-219) -/

/-- The nine invalid filename characters of the source. -/
def invalid_chars : List Char := ['<', '>', ':', '"', '/', '\\', '|', '?', '*']

/-- Python `name.replace(a, b)` for single characters: character-wise map. -/
def replaceChar (a b : Char) (s : List Char) : List Char :=
  s.map fun c => if c = a then b else c

/-- The loop body of `sanitize_filename`: successively replace each invalid
character by an underscore. -/
def sanitizeChars (s : List Char) : List Char :=
  invalid_chars.foldl (fun acc c => replaceChar c '_' acc) s

/-- `sanitize_filename(name)` from the source. -/
def sanitize_filename (s : String) : String := String.mk (sanitizeChars s.data)

/-- Character-level description of sanitization. -/
def sanitizeChar (c : Char) : Char := if c ∈ invalid_chars then '_' else c

theorem charFold_eq (c : Char) :
    invalid_chars.foldl (fun x ch => if x = ch then '_' else x) c = sanitizeChar c := by
  by_cases h : c ∈ invalid_chars
  · simp only [invalid_chars, List.mem_cons, List.not_mem_nil, or_false] at h
    rcases h with h | h | h | h | h | h | h | h | h <;> subst h <;> decide
  · have h9 := h
    simp only [invalid_chars, List.mem_cons, List.not_mem_nil, or_false, not_or] at h
    obtain ⟨h1, h2, h3, h4, h5, h6, h7, h8, h0⟩ := h
    simp [invalid_chars, sanitizeChar, List.foldl, h1, h2, h3, h4, h5, h6, h7, h8, h0, h9]

theorem sanitize_step (L : List Char) (c : Char) (t : List Char) :
    L.foldl (fun acc ch => replaceChar ch '_' acc) (c :: t)
      = (L.foldl (fun x ch => if x = ch then '_' else x) c)
        :: L.foldl (fun acc ch => replaceChar ch '_' acc) t := by
  induction L generalizing c t with
  | nil => rfl
  | cons a L ih =>
    simp only [List.foldl_cons, replaceChar, List.map]
    exact ih _ _

theorem sanitizeChars_eq_map (s : List Char) : sanitizeChars s = s.map sanitizeChar := by
  induction s with
  | nil =>
    simp only [List.map_nil]
    rfl
  | cons c t ih =>
    show invalid_chars.foldl (fun acc ch => replaceChar ch '_' acc) (c :: t) = _
    rw [sanitize_step, charFold_eq]
    simp only [List.map_cons]
    exact congrArg _ ih

theorem sanitizeChar_idem (c : Char) : sanitizeChar (sanitizeChar c) = sanitizeChar c := by
  by_cases h : c ∈ invalid_chars
  · simp only [sanitizeChar, if_pos h]
    decide
  · simp [sanitizeChar, h]

/-- Claim C4: `sanitize_filename` replaces every occurrence of each of the
nine characters `< > : " / \ | ? *` with an underscore (all other characters
are kept), and is idempotent. -/
theorem sanitize_filename_replaces_and_idempotent (s : String) :
    (sanitize_filename s).data = s.data.map sanitizeChar ∧
    sanitize_filename (sanitize_filename s) = sanitize_filename s := by
  constructor
  · show (String.mk (sanitizeChars s.data)).data = _
    simpa using sanitizeChars_eq_map s.data
  · show String.mk (sanitizeChars (String.mk (sanitizeChars s.data)).data) = _
    have : sanitizeChars (sanitizeChars s.data) = sanitizeChars s.data := by
      rw [sanitizeChars_eq_map (sanitizeChars s.data), sanitizeChars_eq_map s.data,
        List.map_map]
      refine List.map_congr_left ?_
      intro c _
      exact sanitizeChar_idem c
    exact congrArg String.mk this

/-! ## Metadata Reader (source lines 60-166)

The mutagen tag read is modelled by its outcome: `none` when opening the
tags raised (`ID3NoHeaderError` or any other exception — both handlers of
the source return the same dictionary), `some tags` when the read
succeeded.  Tag dictionaries are modelled by the optional fields the
source consults. -/

structure TrackMetadata where
  title : String
  artist : String
  album : String
deriving Repr, DecidableEq

/-- The EasyID3 keys consulted by `extract_metadata_mp3`. -/
structure ID3Tags where
  title : Option String
  artist : Option String
  album : Option String
deriving Repr, DecidableEq

/-- The MP4 atoms consulted by `extract_metadata_m4a`. -/
structure MP4Tags where
  nam : Option String
  art : Option String
  aART : Option String
  alb : Option String
deriving Repr, DecidableEq

/-- `extract_metadata_mp3(file_path)`: `readResult` is the outcome of
`EasyID3(file_path)` and `stem` is `Path(file_path).stem`. -/
def extract_metadata_mp3 (readResult : Option ID3Tags) (stem : String) : TrackMetadata :=
  match readResult with
  | none => ⟨stem, "Unknown Artist", "Unknown Album"⟩
  | some tags =>
    let title := tags.title.getD "Unknown Title"
    let artist := tags.artist.getD "Unknown Artist"
    let album :=
      match tags.album with
      | some a => a
      | none =>
        if containsSub (lowerL stem.data) (lowerL title.data) then
          let a := String.mk (stripL (removeAll stem.data title.data))
          if a = "" then "Unknown Album" else a
        else "Unknown Album"
    ⟨title, artist, album⟩

/-- `extract_metadata_m4a(file_path)`. -/
def extract_metadata_m4a (readResult : Option MP4Tags) (stem : String) : TrackMetadata :=
  match readResult with
  | none => ⟨stem, "Unknown Artist", "Unknown Album"⟩
  | some tags =>
    let title := tags.nam.getD "Unknown Title"
    let artist :=
      match tags.art with
      | some a => a
      | none => tags.aART.getD "Unknown Artist"
    let album := tags.alb.getD "Unknown Album"
    ⟨title, artist, album⟩

/-- Claim C3, counterexample: a file named `song.mp3` whose tags are
unreadable does not get the three named defaults — the title is the file
stem, not "Unknown Title". -/
theorem extract_metadata_unreadable_counterexample :
    ¬(extract_metadata_mp3 none "song"
        = ⟨"Unknown Title", "Unknown Artist", "Unknown Album"⟩) := by
  decide

/-- Claim C3 (amended): for every file whose tags are unreadable, both
format handlers return (without raising — the embedding is total) the
metadata with title = filename stem, artist = "Unknown Artist",
album = "Unknown Album". -/
theorem extract_metadata_unreadable_defaults (stem : String) :
    extract_metadata_mp3 none stem = ⟨stem, "Unknown Artist", "Unknown Album"⟩ ∧
    extract_metadata_m4a none stem = ⟨stem, "Unknown Artist", "Unknown Album"⟩ :=
  ⟨rfl, rfl⟩

theorem removeAll_of_not_contains (s pat : List Char)
    (h : containsSub s pat = false) : removeAll s pat = s := by
  induction s with
  | nil =>
    cases pat with
    | nil => simp [removeAll]
    | cons p q => simp [removeAll]
  | cons c t ih =>
    cases pat with
    | nil => simp [containsSub, List.isEmpty] at h
    | cons p q =>
      simp only [containsSub, Bool.or_eq_false_iff] at h
      rw [removeAll]
      rw [if_neg (by simp [h.1]), ih h.2]

theorem containsSub_nil_iff (pat : List Char) :
    containsSub [] pat = true ↔ pat = [] := by
  cases pat <;> simp [containsSub, List.isEmpty]

/-- In the case-mismatch scenario of the album-recovery heuristic, the
removal is a no-op, so the album is the stripped stem (or "Unknown Album"
in the degenerate case where stripping leaves nothing). -/
theorem mp3_album_case_mismatch_strip (tags : ID3Tags) (stem : String)
    (halb : tags.album = none)
    (hlow : containsSub (lowerL stem.data) (lowerL (tags.title.getD "Unknown Title").data) = true)
    (hexact : containsSub stem.data (tags.title.getD "Unknown Title").data = false) :
    (extract_metadata_mp3 (some tags) stem).album
      = if String.mk (stripL stem.data) = "" then "Unknown Album"
        else String.mk (stripL stem.data) := by
  rw [extract_metadata_mp3]
  simp only [halb]
  rw [if_pos hlow, removeAll_of_not_contains _ _ hexact]

/-- Claim C10, counterexample: for the file stem " X" (leading space) and
extracted title "x" the claim's scenario holds — the album tag is missing,
the case-insensitive containment succeeds and the case-sensitive one fails
— yet the returned album is the stripped stem "X", not the full original
stem " X". -/
theorem extract_metadata_mp3_case_mismatch_counterexample :
    containsSub (lowerL (" X" : String).data) (lowerL ("x" : String).data) = true ∧
    containsSub (" X" : String).data ("x" : String).data = false ∧
    (extract_metadata_mp3 (some ⟨some "x", some "A", none⟩) " X").album = "X" ∧
    (extract_metadata_mp3 (some ⟨some "x", some "A", none⟩) " X").album ≠ " X" := by
  refine ⟨by decide, by decide, ?_, ?_⟩
  · rw [mp3_album_case_mismatch_strip ⟨some "x", some "A", none⟩ " X" rfl
      (by decide) (by decide)]
    decide
  · rw [mp3_album_case_mismatch_strip ⟨some "x", some "A", none⟩ " X" rfl
      (by decide) (by decide)]
    decide

/-- Every character of a list whose strip is empty is whitespace. -/
theorem stripL_eq_nil_all_ws (s : List Char) (h : stripL s = []) :
    ∀ c ∈ s, c.isWhitespace = true := by
  intro c hc
  rw [stripL, List.reverse_eq_nil_iff, List.dropWhile_eq_nil_iff] at h
  have hdrop : ∀ x ∈ s.dropWhile Char.isWhitespace, x.isWhitespace = true := by
    intro x hx
    exact h x (List.mem_reverse.mpr hx)
  have hsplit := List.takeWhile_append_dropWhile (p := Char.isWhitespace) (l := s)
  rw [← hsplit] at hc
  rcases List.mem_append.mp hc with h1 | h2
  · exact List.mem_takeWhile_imp h1
  · exact hdrop c h2

/-- Lowercasing fixes whitespace characters. -/
theorem ws_toLower (c : Char) (h : c.isWhitespace = true) : c.toLower = c := by
  simp only [Char.isWhitespace, Bool.or_eq_true, decide_eq_true_eq] at h
  rcases h with ((rfl | rfl) | rfl) | rfl <;> decide

/-- A character whose lowercasing is whitespace is fixed by lowercasing
(the shifted A-Z range lands in a-z, never in whitespace). -/
theorem toLower_ws_self (c : Char) (h : (c.toLower).isWhitespace = true) : c.toLower = c := by
  have ht : c.toLower
      = if c.toNat ≥ 65 ∧ c.toNat ≤ 90 then Char.ofNat (c.toNat + 32) else c := rfl
  by_cases hc : c.toNat ≥ 65 ∧ c.toNat ≤ 90
  · exfalso
    obtain ⟨hc1, hc2⟩ := hc
    rw [ht, if_pos ⟨hc1, hc2⟩] at h
    have hvalid : (c.toNat + 32).isValidChar := Or.inl (by omega)
    have htn : (Char.ofNat (c.toNat + 32)).toNat = c.toNat + 32 := by
      rw [Char.ofNat, dif_pos hvalid]
      rfl
    simp only [Char.isWhitespace, Bool.or_eq_true, decide_eq_true_eq] at h
    rcases h with ((h | h) | h) | h <;>
      · have h2 := congrArg Char.toNat h
        rw [htn] at h2
        simp only [show (' ' : Char).toNat = 32 from rfl,
          show ('\t' : Char).toNat = 9 from rfl, show ('\r' : Char).toNat = 13 from rfl,
          show ('\n' : Char).toNat = 10 from rfl] at h2
        omega
  · rw [ht, if_neg hc]

/-- Every character of a contained pattern occurs in the haystack. -/
theorem containsSub_mem (hay pat : List Char) (h : containsSub hay pat = true) :
    ∀ c ∈ pat, c ∈ hay := by
  induction hay with
  | nil =>
    intro c hc
    cases pat with
    | nil => cases hc
    | cons p q => simp [containsSub, List.isEmpty] at h
  | cons a t ih =>
    intro c hc
    rw [containsSub, Bool.or_eq_true] at h
    rcases h with h | h
    · exact (List.isPrefixOf_iff_prefix.mp h).subset hc
    · exact List.mem_cons_of_mem a (ih h c hc)

/-- Claim C10 (amended): in the MP3 album-recovery heuristic, when the
album tag is missing and the extracted title occurs in the filename stem
only with different letter casing (the case-insensitive check succeeds,
the case-sensitive one fails), the returned album is the original filename
stem stripped of surrounding whitespace (title text still included) —
the case-sensitive removal is a no-op and only the final `.strip()`
applies.  The "Unknown Album" fallback is unreachable here: an
all-whitespace stem would force the case-sensitive containment to succeed
as well. -/
theorem extract_metadata_mp3_case_mismatch_stripped (tags : ID3Tags) (stem : String)
    (halb : tags.album = none)
    (hlow : containsSub (lowerL stem.data) (lowerL (tags.title.getD "Unknown Title").data) = true)
    (hexact : containsSub stem.data (tags.title.getD "Unknown Title").data = false) :
    (extract_metadata_mp3 (some tags) stem).album = String.mk (stripL stem.data) := by
  have hne : ¬(String.mk (stripL stem.data) = "") := by
    intro he
    have hnil : stripL stem.data = [] := congrArg String.data he
    have hws : ∀ c ∈ stem.data, c.isWhitespace = true := stripL_eq_nil_all_ws _ hnil
    have hls : lowerL stem.data = stem.data := by
      show stem.data.map Char.toLower = stem.data
      have h1 : stem.data.map Char.toLower = stem.data.map id :=
        List.map_congr_left (fun c hc => ws_toLower c (hws c hc))
      rw [h1, List.map_id]
    rw [hls] at hlow
    have hmem := containsSub_mem _ _ hlow
    have hteq : lowerL (tags.title.getD "Unknown Title").data
        = (tags.title.getD "Unknown Title").data := by
      show (tags.title.getD "Unknown Title").data.map Char.toLower = _
      have h1 : (tags.title.getD "Unknown Title").data.map Char.toLower
          = (tags.title.getD "Unknown Title").data.map id := by
        refine List.map_congr_left ?_
        intro c hc
        exact toLower_ws_self c (hws _ (hmem _ (List.mem_map_of_mem _ hc)))
      rw [h1, List.map_id]
    rw [hteq] at hlow
    rw [hlow] at hexact
    exact Bool.noConfusion hexact
  rw [mp3_album_case_mismatch_strip tags stem halb hlow hexact, if_neg hne]

/-- Claim C10 witness at the counterexample's own input: the album for the
padded stem " X" with title "x" is the stripped stem "X". -/
theorem extract_metadata_mp3_case_mismatch_stripped_witness :
    ((⟨some "x", some "A", none⟩ : ID3Tags).album = none) ∧
    containsSub (lowerL (" X" : String).data)
      (lowerL ((⟨some "x", some "A", none⟩ : ID3Tags).title.getD "Unknown Title").data) = true ∧
    containsSub (" X" : String).data
      ((⟨some "x", some "A", none⟩ : ID3Tags).title.getD "Unknown Title").data = false ∧
    (extract_metadata_mp3 (some ⟨some "x", some "A", none⟩) " X").album
      = String.mk (stripL (" X" : String).data) :=
  ⟨rfl, by decide, by decide,
    extract_metadata_mp3_case_mismatch_stripped ⟨some "x", some "A", none⟩ " X" rfl
      (by decide) (by decide)⟩

/-! ## resolveAlbum: MusicBrainz selection (source lines 249-312)

The parsed JSON of the primary-catalog response is modelled by the fields
the source consults; absent JSON keys are `none`. -/

structure ReleaseGroup where
  primaryType : Option String
  secondaryTypes : Option (List String)
deriving Repr, DecidableEq

structure Release where
  title : String
  status : Option String
  releaseGroup : Option ReleaseGroup
deriving Repr, DecidableEq

structure Recording where
  score : Int
  releases : Option (List Release)
deriving Repr, DecidableEq

structure Catalog where
  recordings : Option (List Recording)
deriving Repr, DecidableEq

/-- Stable descending insertion sort; the same permutation as Python
`sorted(key=..., reverse=True)` (stable, equal keys keep first-seen order). -/
def insertDescBy (key : α → Int) (x : α) : List α → List α
  | [] => [x]
  | y :: ys => if key x ≥ key y then x :: y :: ys else y :: insertDescBy key x ys

def sortDescBy (key : α → Int) (l : List α) : List α := l.foldr (insertDescBy key) []

/-- The per-release score of the source's inner loop (lines 273-288):
the −15 compilation penalty is applied only inside the
`primary-type == "Album"` branch. -/
def releaseScoreOf (recScore : Int) (rel : Release) : Int :=
  let s := recScore
  let s := if rel.status = some "Official" then s + 30 else s
  match rel.releaseGroup with
  | none => s
  | some rg =>
    if rg.primaryType = some "Album" then
      let s := s + 20
      match rg.secondaryTypes with
      | some sts => if "Compilation" ∈ sts then s - 15 else s
      | none => s
    else s

/-- The body of the source's inner release loop: update the running best
`(best_album, best_album_score)` when the release scores strictly higher. -/
def releaseStep (recScore : Int) (b : Option String × Int) (rel : Release) :
    Option String × Int :=
  if releaseScoreOf recScore rel > b.2 then (some rel.title, releaseScoreOf recScore rel) else b

/-- The source's running best over the releases of one recording. -/
def scanReleases (recScore : Int) (b : Option String × Int) (rels : List Release) :
    Option String × Int :=
  rels.foldl (releaseStep recScore) b

/-- The body of the source's outer recording loop (skip scores below 50,
skip recordings without releases). -/
def recordingStep (b : Option String × Int) (rec : Recording) : Option String × Int :=
  if rec.score < 50 then b
  else
    match rec.releases with
    | some rels => if rels.length > 0 then scanReleases rec.score b rels else b
    | none => b

/-- The source's outer loop over sorted recordings. -/
def scanRecordings (b : Option String × Int) (recs : List Recording) :
    Option String × Int :=
  recs.foldl recordingStep b

/-- Fallback of lines 309-312: first release of `sorted_recordings[0]`. -/
def mbFallback (sorted : List Recording) : Option String :=
  match sorted with
  | [] => none
  | r :: _ =>
    match r.releases with
    | some (rel :: _) => some rel.title
    | _ => none

/-- The MusicBrainz selection portion of `search_album_info` (lines
249-312): the value returned from the primary-catalog block, `none` when
the block falls through to the Last.fm fallback.  The Python truthiness
test `if best_album and best_album_score > 70` requires a non-None,
nonempty title. -/
def mbBest (recs : List Recording) : Option String × Int :=
  scanRecordings (none, 0) (sortDescBy Recording.score recs)

def mbSelect (cat : Catalog) : Option String :=
  match cat.recordings with
  | none => none
  | some recs =>
    if recs.length > 0 then
      match mbBest recs with
      | (some t, s) =>
        if t ≠ "" ∧ s > 70 then some t else mbFallback (sortDescBy Recording.score recs)
      | (none, _) => mbFallback (sortDescBy Recording.score recs)
    else none

/-! Spec-side selection, following the words of claim C1. -/

/-- Composite score exactly as claim C1 states it: the −15 penalty applies
whenever the secondary types include "Compilation", independent of the
primary type. -/
def primaryTypeOf (rel : Release) : Option String := rel.releaseGroup.bind ReleaseGroup.primaryType

def secondaryTypesOf (rel : Release) : List String :=
  (rel.releaseGroup.bind ReleaseGroup.secondaryTypes).getD []

def claimComposite (recScore : Int) (rel : Release) : Int :=
  recScore + (if rel.status = some "Official" then 30 else 0)
    + (if primaryTypeOf rel = some "Album" then 20 else 0)
    - (if "Compilation" ∈ secondaryTypesOf rel then 15 else 0)

/-- Composite score as amended: −15 only when the primary type is "Album"
and the secondary types include "Compilation". -/
def amendedComposite (recScore : Int) (rel : Release) : Int :=
  recScore + (if rel.status = some "Official" then 30 else 0)
    + (if primaryTypeOf rel = some "Album" then 20 else 0)
    - (if primaryTypeOf rel = some "Album" ∧ "Compilation" ∈ secondaryTypesOf rel then 15 else 0)

/-- Releases the claim considers: only those of recordings with score ≥ 50. -/
def eligibleReleases (rec : Recording) : List Release :=
  if 50 ≤ rec.score then rec.releases.getD [] else []

/-- All candidate (title, composite) pairs in first-seen order of the
sorted traversal. -/
def candidatePairs (composite : Int → Release → Int) (recs : List Recording) :
    List (String × Int) :=
  (recs.map (fun rec =>
    (eligibleReleases rec).map (fun rel => (rel.title, composite rec.score rel)))).flatten

/-- One step of the "keep the highest, first seen wins" scan. -/
def specStep (acc : Option (String × Int)) (p : String × Int) : Option (String × Int) :=
  match acc with
  | none => some p
  | some q => if p.2 > q.2 then some p else some q

/-- The first-seen pair realising the maximal composite score (ties broken
by first-seen order). -/
def firstMax (l : List (String × Int)) : Option (String × Int) :=
  l.foldl specStep none

/-- The source's best-tracking step, reformulated on (title, score) pairs. -/
def codeStep (b : Option String × Int) (p : String × Int) : Option String × Int :=
  if p.2 > b.2 then (some p.1, p.2) else b

/-- View of the spec-side scan state as the code-side state. -/
def pairOf : Option (String × Int) → Option String × Int
  | none => (none, 0)
  | some (t, s) => (some t, s)

/-- Selection procedure written from the claim's words, parameterised by
the composite-score formula: pick the single highest-composite candidate
(first-seen tie-break); return its title when the score exceeds 70 (and
the title is nonempty); otherwise fall back to the first release of the
highest-score recording. -/
def specSelect (composite : Int → Release → Int) (cat : Catalog) : Option String :=
  match cat.recordings with
  | none => none
  | some recs =>
    if recs.length > 0 then
      match firstMax (candidatePairs composite (sortDescBy Recording.score recs)) with
      | some (t, s) =>
        if s > 70 ∧ t ≠ "" then some t else mbFallback (sortDescBy Recording.score recs)
      | none => mbFallback (sortDescBy Recording.score recs)
    else none

/-- Concrete catalog on which the claim's formula and the code disagree:
one recording of score 50 with two official releases, the first a
non-album compilation. -/
def catC1 : Catalog :=
  ⟨some [⟨50, some
    [⟨"Alpha", some "Official", some ⟨some "Single", some ["Compilation"]⟩⟩,
     ⟨"Beta", some "Official", none⟩]⟩]⟩

/-- Claim C1, counterexample: the code scores the non-album compilation 80
(no penalty outside the Album branch) and returns "Alpha"; the claim's
composite (unconditional −15) scores it 65 and would return "Beta". -/
theorem mbSelect_claim_counterexample :
    mbSelect catC1 = some "Alpha" ∧
    specSelect claimComposite catC1 = some "Beta" ∧
    mbSelect catC1 ≠ specSelect claimComposite catC1 := by
  refine ⟨by decide, by decide, by decide⟩

/-! Proof that the code's selection equals the amended claim's selection. -/

theorem releaseScoreOf_eq_amended (recScore : Int) (rel : Release) :
    releaseScoreOf recScore rel = amendedComposite recScore rel := by
  rcases rel with ⟨title, status, rg⟩
  cases rg with
  | none =>
    simp only [releaseScoreOf, amendedComposite, primaryTypeOf, secondaryTypesOf,
      Option.bind, Option.getD]
    split_ifs <;> first | omega | tauto
  | some rg =>
    rcases rg with ⟨pt, sts⟩
    cases sts with
    | none =>
      simp only [releaseScoreOf, amendedComposite, primaryTypeOf, secondaryTypesOf,
        Option.bind, Option.getD]
      split_ifs <;> first | omega | tauto
    | some l =>
      simp only [releaseScoreOf, amendedComposite, primaryTypeOf, secondaryTypesOf,
        Option.bind, Option.getD]
      split_ifs <;> first | omega | tauto

theorem releaseScoreOf_ge (recScore : Int) (rel : Release) :
    recScore ≤ releaseScoreOf recScore rel := by
  rw [releaseScoreOf_eq_amended]
  rcases rel with ⟨title, status, rg⟩
  simp only [amendedComposite]
  split_ifs <;> first | omega | tauto

theorem scanReleases_eq_foldl (recScore : Int) (b : Option String × Int)
    (rels : List Release) :
    scanReleases recScore b rels
      = (rels.map (fun rel => (rel.title, releaseScoreOf recScore rel))).foldl codeStep b := by
  rw [scanReleases, List.foldl_map]
  rfl

theorem recordingStep_eq_foldl (b : Option String × Int) (rec : Recording) :
    recordingStep b rec
      = ((eligibleReleases rec).map
          (fun rel => (rel.title, releaseScoreOf rec.score rel))).foldl codeStep b := by
  rw [recordingStep]
  by_cases h : rec.score < 50
  · rw [if_pos h, eligibleReleases, if_neg (by omega)]
    rfl
  · rw [if_neg h, eligibleReleases, if_pos (by omega)]
    cases hrel : rec.releases with
    | none => rfl
    | some rels =>
      show (if rels.length > 0 then scanReleases rec.score b rels else b) = _
      cases rels with
      | nil => rfl
      | cons r rs =>
        rw [if_pos (by simp)]
        exact scanReleases_eq_foldl _ _ _

theorem scanRecordings_eq_foldl (recs : List Recording) (b : Option String × Int) :
    scanRecordings b recs = (candidatePairs releaseScoreOf recs).foldl codeStep b := by
  induction recs generalizing b with
  | nil => rfl
  | cons rec recs ih =>
    rw [scanRecordings, List.foldl_cons]
    have hcp : candidatePairs releaseScoreOf (rec :: recs)
        = (eligibleReleases rec).map (fun rel => (rel.title, releaseScoreOf rec.score rel))
          ++ candidatePairs releaseScoreOf recs := by
      rw [candidatePairs, candidatePairs, List.map_cons, List.flatten_cons]
    rw [hcp, List.foldl_append, ← recordingStep_eq_foldl]
    exact ih (recordingStep b rec)

theorem foldl_codeStep_some (P : List (String × Int)) :
    ∀ t s, (∀ p ∈ P, 0 < p.2) →
      P.foldl codeStep (some t, s) = pairOf (P.foldl specStep (some (t, s))) := by
  induction P with
  | nil => intro t s _; rfl
  | cons p P ih =>
    intro t s hall
    rw [List.foldl_cons, List.foldl_cons]
    have hc : codeStep (some t, s) p = if p.2 > s then (some p.1, p.2) else (some t, s) := rfl
    have hs : specStep (some (t, s)) p = if p.2 > s then some p else some (t, s) := rfl
    rw [hc, hs]
    by_cases h : p.2 > s
    · rw [if_pos h, if_pos h]
      exact ih p.1 p.2 (fun q hq => hall q (List.mem_cons_of_mem _ hq))
    · rw [if_neg h, if_neg h]
      exact ih t s (fun q hq => hall q (List.mem_cons_of_mem _ hq))

theorem foldl_codeStep_none (P : List (String × Int)) (hall : ∀ p ∈ P, 0 < p.2) :
    P.foldl codeStep (none, 0) = pairOf (P.foldl specStep none) := by
  cases P with
  | nil => rfl
  | cons p P =>
    rw [List.foldl_cons, List.foldl_cons]
    have h2 : codeStep (none, 0) p = (some p.1, p.2) := by
      rw [codeStep]
      rw [if_pos (hall p (List.mem_cons_self _ _))]
    have h3 : specStep none p = some p := rfl
    rw [h2, h3]
    exact foldl_codeStep_some P p.1 p.2 (fun q hq => hall q (List.mem_cons_of_mem _ hq))

theorem candidatePairs_pos (recs : List Recording) :
    ∀ p ∈ candidatePairs releaseScoreOf recs, 0 < p.2 := by
  intro p hp
  rw [candidatePairs] at hp
  simp only [List.mem_flatten, List.mem_map] at hp
  obtain ⟨l, ⟨rec, hrec, rfl⟩, hpl⟩ := hp
  simp only [List.mem_map] at hpl
  obtain ⟨rel, hrel, rfl⟩ := hpl
  by_cases h : (50 : Int) ≤ rec.score
  · have := releaseScoreOf_ge rec.score rel
    simp only
    omega
  · rw [eligibleReleases, if_neg h] at hrel
    exact absurd hrel (List.not_mem_nil rel)

theorem candidatePairs_amended (recs : List Recording) :
    candidatePairs releaseScoreOf recs = candidatePairs amendedComposite recs := by
  rw [candidatePairs, candidatePairs]
  congr 1
  refine List.map_congr_left ?_
  intro rec _
  refine List.map_congr_left ?_
  intro rel _
  rw [releaseScoreOf_eq_amended]

/-- Claim C1 (amended): the selection implemented by `search_album_info`
over a primary-catalog response equals the claim's procedure with the
composite score corrected so that the −15 compilation penalty applies only
when the release-group primary type is "Album": over recordings with score
≥ 50 it picks the single highest-composite release (first-seen order breaks
ties), returns its title when the composite exceeds 70 (and the title is
nonempty), and otherwise falls back to the first release of the
highest-score recording. -/
theorem mbSelect_eq_amended_spec (cat : Catalog) :
    mbSelect cat = specSelect amendedComposite cat := by
  rcases cat with ⟨recs⟩
  cases recs with
  | none => rfl
  | some recs =>
    show (if recs.length > 0 then _ else none) = (if recs.length > 0 then _ else none)
    by_cases hlen : recs.length > 0
    · rw [if_pos hlen, if_pos hlen]
      have hb : mbBest recs
          = pairOf (firstMax (candidatePairs amendedComposite (sortDescBy Recording.score recs))) := by
        rw [mbBest, scanRecordings_eq_foldl, firstMax, ← candidatePairs_amended]
        exact foldl_codeStep_none _ (candidatePairs_pos _)
      rw [hb]
      cases hfm : firstMax (candidatePairs amendedComposite (sortDescBy Recording.score recs)) with
      | none => rfl
      | some p =>
        rcases p with ⟨t, s⟩
        show (if t ≠ "" ∧ s > 70 then some t else _) = (if s > 70 ∧ t ≠ "" then some t else _)
        exact if_congr and_comm rfl rfl
    · rw [if_neg hlen, if_neg hlen]

/-! ## Network model for the resolvers (source lines 221-337, 339-473, 475-692)

Each HTTP interaction of the source is the value of one environment field:
`exn` models `requests.get` raising, and `resp status body` a returned
response whose `.json()` call yields `body` (an `Except.error` body models
a parse exception).  Values are the already-parsed JSON projections the
source consults. -/

inductive NetResp (α : Type) where
  | exn : NetResp α
  | resp (status : Nat) (body : Except Unit α) : NetResp α

/-- An image download (`requests.get(image_url)`): `.json()` is never
called on it, only the status code and raw content are used. -/
inductive DlResp where
  | exn : DlResp
  | resp (status : Nat) (content : List Nat) : DlResp

/-- Run a `try` body: the `except` handler of both resolvers returns None. -/
def runCatch (e : Except Unit (Option α)) : Option α :=
  match e with
  | .ok r => r
  | .error _ => none

/-! ### search_album_info (lines 221-337) -/

/-- The MusicBrainz phase: lines 243-312.  A 200 response is parsed (a
parse failure raises) and fed to the selection logic; a non-200 response
falls through with no result. -/
def mbPhaseE (r : NetResp Catalog) : Except Unit (Option String) :=
  match r with
  | .exn => .error ()
  | .resp st body =>
    if st = 200 then
      match body with
      | .error _ => .error ()
      | .ok cat => .ok (mbSelect cat)
    else .ok none

/-- The Last.fm phase of `search_album_info`: lines 314-330.  The payload
models `data["track"]["album"]["title"]` when the `track`/`album` keys are
present, `none` when they are absent. -/
def lastfmAlbumPhaseE (r : NetResp (Option String)) : Except Unit (Option String) :=
  match r with
  | .exn => .error ()
  | .resp st body =>
    if st = 200 then
      match body with
      | .error _ => .error ()
      | .ok payload => .ok payload
    else .ok none

/-- The body of `search_album_info` inside its `try`: MusicBrainz first,
then Last.fm when MusicBrainz produced nothing. -/
def search_album_info_E (mb : NetResp Catalog) (lfm : NetResp (Option String)) :
    Except Unit (Option String) := do
  let r1 ← mbPhaseE mb
  match r1 with
  | some a => pure (some a)
  | none => lastfmAlbumPhaseE lfm

/-- `search_album_info(artist, title)` as a function of the two network
interactions it performs: the enclosing `except` returns None. -/
def search_album_info (mb : NetResp Catalog) (lfm : NetResp (Option String)) :
    Option String :=
  runCatch (search_album_info_E mb lfm)

/-- The resolution procedure written from claim C7's words: any failure of
a source — exception included — is treated as no-result and the next
fallback source is tried; None when every path is exhausted. -/
def claimResolveAlbum (mb : NetResp Catalog) (lfm : NetResp (Option String)) :
    Option String :=
  match runCatch (mbPhaseE mb) with
  | some a => some a
  | none => runCatch (lastfmAlbumPhaseE lfm)

/-- Claim C7, counterexample: when the MusicBrainz request raises and the
Last.fm lookup would succeed with album "B", the code returns None without
trying the fallback, while the claim's procedure returns "B". -/
theorem search_album_info_exception_counterexample :
    search_album_info NetResp.exn (NetResp.resp 200 (.ok (some "B"))) = none ∧
    claimResolveAlbum NetResp.exn (NetResp.resp 200 (.ok (some "B"))) = some "B" ∧
    search_album_info NetResp.exn (NetResp.resp 200 (.ok (some "B")))
      ≠ claimResolveAlbum NetResp.exn (NetResp.resp 200 (.ok (some "B"))) := by
  refine ⟨rfl, rfl, by decide⟩

/-! ### search_wiki_album_art (lines 339-473) -/

/-- One entry of Last.fm's `image` arrays: `#text` (the URL) and `size`. -/
structure LfmImage where
  text : String
  size : String
deriving Repr, DecidableEq

structure WikiSearchResult where
  pageid : Nat
deriving Repr, DecidableEq

structure WikiImage where
  title : String
deriving Repr, DecidableEq

/-- An `imageinfo` query response: the pages dict in iteration order; a
page without an `imageinfo` key is `none`; each `img_info` entry is its
optional `url`. -/
def ImageInfoPages : Type := List (Option (List (Option String)))

/-- Environment of one `search_wiki_album_art` call. -/
structure WikiEnv where
  searchResp : NetResp (List WikiSearchResult)
  imagesResp : NetResp (Option (List WikiImage))
  imageinfoResp : String → NetResp ImageInfoPages
  dl : String → DlResp

/-- The cover keywords of line 388. -/
def coverKeywords : List String := ["cover", "album", "front", "artwork", "art"]

/-- Lines 393-396: lower-cased title, stripped of everything up to a
`file:` marker when one occurs. -/
def cleanTitle (t : List Char) : List Char :=
  match afterLastScan? t ("file:".data) with
  | some rest => stripL rest
  | none => t

/-- The image score of lines 398-414. -/
def scoreImage (artist album : String) (title : String) : Int :=
  let clean := cleanTitle (lowerL title.data)
  let s := coverKeywords.foldl (fun s kw => if containsSub clean kw.data then s + 1 else s) 0
  let s := if containsSub clean (lowerL artist.data) then s + 2 else s
  let s := if containsSub clean (lowerL album.data) then s + 3 else s
  if ".jpg".data.isSuffixOf clean ∨ ".jpeg".data.isSuffixOf clean then s + 2
  else if ".png".data.isSuffixOf clean then s + 1
  else s

/-- Inner loop of lines 441-463: try each `img_info` url; the download is
wrapped in its own `try`, so a raising download just moves on. -/
def tryInfosW (dl : String → DlResp) : List (Option String) → Option (List Nat)
  | [] => none
  | none :: rest => tryInfosW dl rest
  | some url :: rest =>
    match dl url with
    | .exn => tryInfosW dl rest
    | .resp st content => if st = 200 then some content else tryInfosW dl rest

/-- Loop over the pages of one `imageinfo` response (lines 439-465). -/
def tryPagesW (dl : String → DlResp) : List (Option (List (Option String))) → Option (List Nat)
  | [] => none
  | none :: rest => tryPagesW dl rest
  | some infos :: rest =>
    match tryInfosW dl infos with
    | some b => some b
    | none => tryPagesW dl rest

/-- Loop over the scored potential covers (lines 424-465).  An exception on
the `imageinfo` request itself reaches the function's own handler, which
returns None — indistinguishable in the result from exhausting the list. -/
def tryCovers (env : WikiEnv) : List (String × Int) → Option (List Nat)
  | [] => none
  | (ct, _) :: rest =>
    match env.imageinfoResp ct with
    | .exn => none
    | .resp st body =>
      if st = 200 then
        match body with
        | .error _ => none
        | .ok pages =>
          match tryPagesW env.dl pages with
          | some b => some b
          | none => tryCovers env rest
      else tryCovers env rest

/-- `search_wiki_album_art(artist, album)`: the whole body is inside one
`try` whose handler returns None, so this function never raises. -/
def search_wiki_album_art (artist album : String) (env : WikiEnv) : Option (List Nat) :=
  match env.searchResp with
  | .exn => none
  | .resp st body =>
    if st = 200 then
      match body with
      | .error _ => none
      | .ok [] => none
      | .ok (_ :: _) =>
        match env.imagesResp with
        | .exn => none
        | .resp st2 body2 =>
          if st2 = 200 then
            match body2 with
            | .error _ => none
            | .ok none => none
            | .ok (some imgs) =>
              if imgs.isEmpty then none
              else
                tryCovers env (sortDescBy (fun p => p.2)
                  ((imgs.map (fun img => (img.title, scoreImage artist album img.title))).filter
                    (fun p => p.2 > 0)))
          else none
    else none

/-! ### search_album_art_online (lines 475-692) -/

structure DbpBinding where
  coverArtVar : Option String
deriving Repr, DecidableEq

structure DbpBinding2 where
  cover : Option String
deriving Repr, DecidableEq

/-- Environment of one `search_album_art_online` call: each field is one of
the network interactions the body can perform, in source order. -/
structure ArtEnv where
  lfmAlbumResp : NetResp (Option (List LfmImage))
  lfmAlbumDl : String → DlResp
  lfmTrackResp : NetResp (Option (List LfmImage))
  lfmTrackDl : String → DlResp
  wiki : WikiEnv
  dbp1Resp : NetResp (List DbpBinding)
  dbp1WikiResp : String → NetResp ImageInfoPages
  dbp2Resp : NetResp (List DbpBinding2)
  dbp2WikiResp : String → NetResp ImageInfoPages
  dl : String → DlResp

/-- Last.fm image loop (lines 498-506 and 516-524): iterate the reversed
image list, keep entries with a nonempty url and size extralarge/mega,
download; a raising download propagates (no inner try here), a non-200
download moves on. -/
def tryImagesE (dl : String → DlResp) : List LfmImage → Except Unit (Option (List Nat))
  | [] => .ok none
  | img :: rest =>
    if img.text ≠ "" ∧ (img.size = "extralarge" ∨ img.size = "mega") then
      match dl img.text with
      | .exn => .error ()
      | .resp st content =>
        if st = 200 then .ok (some content) else tryImagesE dl rest
    else tryImagesE dl rest

/-- One Last.fm art phase (album-based or track-based): payload is
`some images` when the JSON path (`album.image` resp. `track.album.image`)
is present, else `none`. -/
def lfmArtPhaseE (r : NetResp (Option (List LfmImage))) (dl : String → DlResp) :
    Except Unit (Option (List Nat)) :=
  match r with
  | .exn => .error ()
  | .resp st body =>
    if st = 200 then
      match body with
      | .error _ => .error ()
      | .ok none => .ok none
      | .ok (some imgs) => tryImagesE dl imgs.reverse
    else .ok none

/-- Lines 572-586: the first binding carrying `coverArtVar` (the loop
breaks at the first hit). -/
def firstCoverArtVar : List DbpBinding → Option String
  | [] => none
  | b :: rest =>
    match b.coverArtVar with
    | some v => some v
    | none => firstCoverArtVar rest

/-- Lines 578-585: take the segment after the last `/` when one occurs,
then strip `@en` characters and double quotes from both ends. -/
def extractFilename (v : List Char) : List Char :=
  stripChars (stripChars
    (if containsSub v ['/'] then afterLastChar '/' v else v) ['@', 'e', 'n']) ['"']

/-- Pages loop of the DBpedia branches (lines 604-616 and 676-685): like
the Wikipedia one but downloads are not individually guarded, so a raising
download propagates to the outer handler. -/
def tryInfosD (dl : String → DlResp) : List (Option String) → Except Unit (Option (List Nat))
  | [] => .ok none
  | none :: rest => tryInfosD dl rest
  | some url :: rest =>
    match dl url with
    | .exn => .error ()
    | .resp st content => if st = 200 then .ok (some content) else tryInfosD dl rest

def tryPagesD (dl : String → DlResp) :
    List (Option (List (Option String))) → Except Unit (Option (List Nat))
  | [] => .ok none
  | none :: rest => tryPagesD dl rest
  | some infos :: rest =>
    match tryInfosD dl infos with
    | .error e => .error e
    | .ok (some b) => .ok (some b)
    | .ok none => tryPagesD dl rest

/-- First DBpedia phase (lines 535-622), as a function of the three network
interactions it performs. -/
def dbpPhase1E (resp : NetResp (List DbpBinding)) (wikiResp : String → NetResp ImageInfoPages)
    (dl : String → DlResp) : Except Unit (Option (List Nat)) :=
  match resp with
  | .exn => .error ()
  | .resp st body =>
    if st = 200 then
      match body with
      | .error _ => .error ()
      | .ok bindings =>
        match firstCoverArtVar bindings with
        | none => .ok none
        | some v =>
          if extractFilename v.data = [] then .ok none
          else
            match wikiResp (String.mk (extractFilename v.data)) with
            | .exn => .error ()
            | .resp st2 body2 =>
              if st2 = 200 then
                match body2 with
                | .error _ => .error ()
                | .ok pages => tryPagesD dl pages
              else .ok none
    else .ok none

/-- Result loop of the generic DBpedia query (lines 654-685): every result
with a `cover` value is tried (no break, no `@en` stripping here). -/
def dbp2Loop (wikiResp : String → NetResp ImageInfoPages) (dl : String → DlResp) :
    List DbpBinding2 → Except Unit (Option (List Nat))
  | [] => .ok none
  | b :: rest =>
    match b.cover with
    | none => dbp2Loop wikiResp dl rest
    | some v =>
      match wikiResp (String.mk
          (if containsSub v.data ['/'] then afterLastChar '/' v.data else v.data)) with
      | .exn => .error ()
      | .resp st body =>
        if st = 200 then
          match body with
          | .error _ => .error ()
          | .ok pages =>
            match tryPagesD dl pages with
            | .error e => .error e
            | .ok (some bts) => .ok (some bts)
            | .ok none => dbp2Loop wikiResp dl rest
        else dbp2Loop wikiResp dl rest

/-- Second (generic) DBpedia phase (lines 624-685). -/
def dbp2PhaseE (resp : NetResp (List DbpBinding2)) (wikiResp : String → NetResp ImageInfoPages)
    (dl : String → DlResp) : Except Unit (Option (List Nat)) :=
  match resp with
  | .exn => .error ()
  | .resp st body =>
    if st = 200 then
      match body with
      | .error _ => .error ()
      | .ok results => dbp2Loop wikiResp dl results
    else .ok none

/-- The album-based Last.fm step (lines 489-506): skipped entirely when the
album is empty or the "Unknown Album" placeholder. -/
def albumStepE (album : String) (env : ArtEnv) : Except Unit (Option (List Nat)) :=
  if album ≠ "" ∧ album ≠ "Unknown Album" then lfmArtPhaseE env.lfmAlbumResp env.lfmAlbumDl
  else pure none

/-- The fallback chain after the album-based step: track lookup, then
Wikipedia, then the two DBpedia queries, as a function of the network
interactions those phases perform. -/
def artRestE (artist album : String) (trackResp : NetResp (Option (List LfmImage)))
    (trackDl : String → DlResp) (wiki : WikiEnv) (d1 : NetResp (List DbpBinding))
    (w1 : String → NetResp ImageInfoPages) (d2 : NetResp (List DbpBinding2))
    (w2 : String → NetResp ImageInfoPages) (dl : String → DlResp) :
    Except Unit (Option (List Nat)) := do
  let rT ← lfmArtPhaseE trackResp trackDl
  match rT with
  | some b => pure (some b)
  | none =>
    match search_wiki_album_art artist album wiki with
    | some b => pure (some b)
    | none => do
      let r1 ← dbpPhase1E d1 w1 dl
      match r1 with
      | some b => pure (some b)
      | none => dbp2PhaseE d2 w2 dl

/-- The fallback chain applied to the fields of an environment. -/
def artRest (artist album : String) (env : ArtEnv) : Except Unit (Option (List Nat)) :=
  artRestE artist album env.lfmTrackResp env.lfmTrackDl env.wiki env.dbp1Resp
    env.dbp1WikiResp env.dbp2Resp env.dbp2WikiResp env.dl

/-- The body of `search_album_art_online` inside its `try`. -/
def search_album_art_online_E (artist album title : String) (env : ArtEnv) :
    Except Unit (Option (List Nat)) := do
  let rA ← albumStepE album env
  match rA with
  | some b => pure (some b)
  | none => artRest artist album env

/-- `search_album_art_online(artist, album, title)` as a function of its
network environment: the enclosing `except` returns None.  The `title`
argument only feeds the track-lookup URL, which the environment models. -/
def search_album_art_online (artist album title : String) (env : ArtEnv) :
    Option (List Nat) :=
  runCatch (search_album_art_online_E artist album title env)

/-- Claim C7 (amended): neither resolver ever propagates an exception (both
are total and return None whenever their body raises), but an exception
aborts the remaining fallback sources instead of falling through to them;
only a soft failure (non-200 status or missing data) lets resolution
continue with the next source, and None is returned when every path is
exhausted.  The three cases per resolver are exhaustive in the outcome of
the first step. -/
theorem resolver_failure_handling :
    (∀ mb lfm, mbPhaseE mb = .error () → search_album_info mb lfm = none) ∧
    (∀ mb lfm a, mbPhaseE mb = .ok (some a) → search_album_info mb lfm = some a) ∧
    (∀ mb lfm, mbPhaseE mb = .ok none →
      search_album_info mb lfm = runCatch (lastfmAlbumPhaseE lfm)) ∧
    (∀ artist album title env, albumStepE album env = .error () →
      search_album_art_online artist album title env = none) ∧
    (∀ artist album title env b, albumStepE album env = .ok (some b) →
      search_album_art_online artist album title env = some b) ∧
    (∀ artist album title env, albumStepE album env = .ok none →
      search_album_art_online artist album title env = runCatch (artRest artist album env)) := by
  refine ⟨?_, ?_, ?_, ?_, ?_, ?_⟩
  · intro mb lfm h
    rw [search_album_info, search_album_info_E, h]
    rfl
  · intro mb lfm a h
    rw [search_album_info, search_album_info_E, h]
    rfl
  · intro mb lfm h
    rw [search_album_info, search_album_info_E, h]
    rfl
  · intro artist album title env h
    rw [search_album_art_online, search_album_art_online_E, h]
    rfl
  · intro artist album title env b h
    rw [search_album_art_online, search_album_art_online_E, h]
    rfl
  · intro artist album title env h
    rw [search_album_art_online, search_album_art_online_E, h]
    rfl

/-- A concrete environment for the witnesses: the album-based Last.fm
lookup would succeed, every other source soft-fails. -/
def envC9 : ArtEnv :=
  { lfmAlbumResp := NetResp.resp 200 (.ok (some [⟨"u", "mega"⟩])),
    lfmAlbumDl := fun _ => DlResp.resp 200 [1, 2],
    lfmTrackResp := NetResp.resp 404 (.ok none),
    lfmTrackDl := fun _ => DlResp.exn,
    wiki :=
      { searchResp := NetResp.resp 200 (.ok []),
        imagesResp := NetResp.resp 200 (.ok none),
        imageinfoResp := fun _ => NetResp.exn,
        dl := fun _ => DlResp.exn },
    dbp1Resp := NetResp.resp 200 (.ok []),
    dbp1WikiResp := fun _ => NetResp.exn,
    dbp2Resp := NetResp.resp 200 (.ok []),
    dbp2WikiResp := fun _ => NetResp.exn,
    dl := fun _ => DlResp.exn }

/-- Claim C7 witness: a 500 MusicBrainz response is a soft failure, and the
result is then whatever the Last.fm phase yields. -/
theorem resolver_failure_handling_witness :
    mbPhaseE (NetResp.resp 500 (.ok (⟨none⟩ : Catalog))) = .ok none ∧
    search_album_info (NetResp.resp 500 (.ok (⟨none⟩ : Catalog)))
        (NetResp.resp 200 (.ok (some "W")))
      = runCatch (lastfmAlbumPhaseE (NetResp.resp 200 (.ok (some "W")))) :=
  ⟨rfl, resolver_failure_handling.2.2.1 _ _ rfl⟩

/-- Claim C9: when the album argument is empty or the "Unknown Album"
placeholder, the album-based lookup step is skipped entirely — resolution
equals the fallback chain starting at the track lookup, and the result does
not depend on the album-lookup responses at all. -/
theorem art_album_step_skipped (artist album title : String) (env : ArtEnv)
    (h : album = "" ∨ album = "Unknown Album") :
    search_album_art_online artist album title env = runCatch (artRest artist album env) ∧
    ∀ r d, search_album_art_online artist album title env
      = search_album_art_online artist album title
          { env with lfmAlbumResp := r, lfmAlbumDl := d } := by
  have hcond : ¬(album ≠ "" ∧ album ≠ "Unknown Album") := by
    rcases h with rfl | rfl <;> simp
  constructor
  · rw [search_album_art_online, search_album_art_online_E, albumStepE, if_neg hcond]
    rfl
  · intro r d
    rcases env with ⟨a1, a2, a3, a4, a5, a6, a7, a8, a9, a0⟩
    rw [search_album_art_online, search_album_art_online_E, albumStepE, if_neg hcond,
      search_album_art_online, search_album_art_online_E, albumStepE, if_neg hcond]
    rfl

/-- Claim C9 witness at a concrete environment where the skipped album
lookup would have succeeded. -/
theorem art_album_step_skipped_witness :
    (("" : String) = "" ∨ ("" : String) = "Unknown Album") ∧
    search_album_art_online "A" "" "T" envC9 = runCatch (artRest "A" "" envC9) :=
  ⟨Or.inl rfl, (art_album_step_skipped "A" "" "T" envC9 (Or.inl rfl)).1⟩

/-! ## The extract-and-organize loop of main (source lines 1195-1364)

The destination filesystem is modelled explicitly; each mutating call of
the loop is recorded as an action.  The album-art attachment block only
reads the network and writes embedded art into the destination file, so its
two external queries (`has_album_art`, `search_album_art_online`) are
modelled as oracles keyed the way the code keys them; the in-run art cache
only avoids repeated identical queries and cannot change which actions are
taken, so it is not part of the state. -/

structure Args where
  move : Bool
  extract_art : Bool
  force : Bool
  simulate : Bool
  attach_art : Bool
deriving Repr, DecidableEq

inductive FsAction where
  | mkdirDest
  | mkdirArtist (artist : String)
  | mkdirAlbum (artist album : String)
  | saveArt (artist album : String)
  | copyFile (srcName artist album fname : String)
  | moveFile (srcName artist album fname : String)
  | attachArt (artist album fname : String)
deriving Repr, DecidableEq

/-- The destination tree: artist directories, album directories and files
(artist, album, filename). -/
structure DestFS where
  artistDirs : List String
  albumDirs : List (String × String)
  files : List (String × String × String)
deriving Repr, DecidableEq

/-- A source file: its name, its suffix, and the metadata
`extract_metadata` yields for it. -/
structure SrcFile where
  name : String
  suffix : String
  meta : TrackMetadata
deriving Repr, DecidableEq

structure RunState where
  fs : DestFS
  processed : List String
  duplicate_count : Nat
  duplicates_list : List String
  actions : List FsAction
deriving Repr, DecidableEq

/-- Oracles for the attach-art block: `hasArt` models `has_album_art` on
the freshly copied destination file (keyed by the source name whose content
it carries), `findArt` whether `search_album_art_online` finds image data
for the metadata triple. -/
structure ArtOracles where
  hasArt : String → Bool
  findArt : String → String → String → Bool

/-- Whether the loop head keeps the file (`file.suffix.lower() in
['.mp3', '.m4a']`). -/
def supportedFile (f : SrcFile) : Prop :=
  String.mk (lowerL f.suffix.data) = ".mp3" ∨ String.mk (lowerL f.suffix.data) = ".m4a"

instance (f : SrcFile) : Decidable (supportedFile f) := by
  unfold supportedFile
  infer_instance

/-- The sanitized duplicate signature of lines 1239-1244. -/
def fileSignature (f : SrcFile) : String :=
  sanitize_filename f.meta.artist ++ "|" ++ sanitize_filename f.meta.album ++ "|"
    ++ sanitize_filename f.meta.title

/-- The duplicate report entry of line 1247. -/
def dupEntry (f : SrcFile) : String :=
  sanitize_filename f.meta.artist ++ " - " ++ sanitize_filename f.meta.album ++ " - "
    ++ sanitize_filename f.meta.title ++ " (" ++ f.name ++ ")"

/-- Lines 1245-1249: duplicate bookkeeping (count and report), performed
before the force check. -/
def dupCheckStep (f : SrcFile) (st : RunState) : RunState :=
  if fileSignature f ∈ st.processed then
    { st with duplicate_count := st.duplicate_count + 1,
              duplicates_list := st.duplicates_list ++ [dupEntry f] }
  else st

/-- Line 1255: `processed_files.append(file_signature)`. -/
def markProcessed (f : SrcFile) (st : RunState) : RunState :=
  { st with processed := st.processed ++ [fileSignature f] }

/-- Lines 1257-1261: create the artist directory if missing. -/
def artistDirStep (artist_name : String) (st : RunState) : RunState :=
  if artist_name ∈ st.fs.artistDirs then st
  else
    { st with fs := { st.fs with artistDirs := st.fs.artistDirs ++ [artist_name] },
              actions := st.actions ++ [.mkdirArtist artist_name] }

/-- Lines 1263-1274: the scan of sibling album folders for an
already-filed copy of an Unknown-Album song. -/
def songAlreadyExists (f : SrcFile) (st : RunState) : Prop :=
  sanitize_filename f.meta.album = "Unknown Album" ∧
    st.fs.albumDirs.any (fun p =>
      p.1 = sanitize_filename f.meta.artist ∧ p.2 ≠ "Unknown Album" ∧
        (sanitize_filename f.meta.artist, p.2, sanitize_filename f.meta.title ++ f.suffix)
          ∈ st.fs.files) = true

instance (f : SrcFile) (st : RunState) : Decidable (songAlreadyExists f st) := by
  unfold songAlreadyExists
  infer_instance

/-- Lines 1279-1283: create the album directory if missing. -/
def albumDirStep (artist_name album_name : String) (st : RunState) : RunState :=
  if (artist_name, album_name) ∈ st.fs.albumDirs then st
  else
    { st with
      fs := { st.fs with albumDirs := st.fs.albumDirs ++ [(artist_name, album_name)] },
      actions := st.actions ++ [.mkdirAlbum artist_name album_name] }

/-- Lines 1285-1287: `extract_and_save_album_art` when requested. -/
def extractArtStep (args : Args) (artist_name album_name : String) (st : RunState) : RunState :=
  if args.extract_art then
    { st with actions := st.actions ++ [.saveArt artist_name album_name] }
  else st

/-- Lines 1301-1307: the copy or move plus the new destination file. -/
def copyMoveStep (args : Args) (f : SrcFile) (artist_name album_name new_filename : String)
    (st : RunState) : RunState :=
  { st with
    fs := { st.fs with files := st.fs.files ++ [(artist_name, album_name, new_filename)] },
    actions := st.actions ++
      [if args.move then FsAction.moveFile f.name artist_name album_name new_filename
       else FsAction.copyFile f.name artist_name album_name new_filename] }

/-- Lines 1309-1346: the attach-art block, driven by the two oracles. -/
def attachStep (args : Args) (orc : ArtOracles) (f : SrcFile)
    (artist_name album_name new_filename : String) (st : RunState) : RunState :=
  if args.attach_art then
    if ¬orc.hasArt f.name ∧ orc.findArt f.meta.artist f.meta.album f.meta.title then
      { st with actions := st.actions ++ [.attachArt artist_name album_name new_filename] }
    else st
  else st

/-- Lines 1257-1346: everything after the duplicate check, starting from
the state with the signature recorded. -/
def processOrganize (args : Args) (orc : ArtOracles) (f : SrcFile) (st2 : RunState) :
    RunState :=
  if songAlreadyExists f (artistDirStep (sanitize_filename f.meta.artist) st2) ∧ ¬args.force
  then artistDirStep (sanitize_filename f.meta.artist) st2
  else
    if (sanitize_filename f.meta.artist, sanitize_filename f.meta.album,
          sanitize_filename f.meta.title ++ f.suffix)
        ∈ (extractArtStep args (sanitize_filename f.meta.artist)
            (sanitize_filename f.meta.album)
            (albumDirStep (sanitize_filename f.meta.artist) (sanitize_filename f.meta.album)
              (artistDirStep (sanitize_filename f.meta.artist) st2))).fs.files ∧ ¬args.force
    then
      extractArtStep args (sanitize_filename f.meta.artist) (sanitize_filename f.meta.album)
        (albumDirStep (sanitize_filename f.meta.artist) (sanitize_filename f.meta.album)
          (artistDirStep (sanitize_filename f.meta.artist) st2))
    else
      attachStep args orc f (sanitize_filename f.meta.artist) (sanitize_filename f.meta.album)
        (sanitize_filename f.meta.title ++ f.suffix)
        (copyMoveStep args f (sanitize_filename f.meta.artist) (sanitize_filename f.meta.album)
          (sanitize_filename f.meta.title ++ f.suffix)
          (extractArtStep args (sanitize_filename f.meta.artist)
            (sanitize_filename f.meta.album)
            (albumDirStep (sanitize_filename f.meta.artist) (sanitize_filename f.meta.album)
              (artistDirStep (sanitize_filename f.meta.artist) st2))))

/-- One iteration of the per-file loop (lines 1226-1346), the steps above
composed in source order.  Note that `args.simulate` is never consulted
anywhere in this loop — faithful to the source. -/
def processFile (args : Args) (orc : ArtOracles) (st : RunState) (f : SrcFile) : RunState :=
  if ¬supportedFile f then st
  else if fileSignature f ∈ st.processed ∧ ¬args.force then dupCheckStep f st
  else processOrganize args orc f (markProcessed f (dupCheckStep f st))

/-- The extract-and-organize run: destination-directory creation (lines
1212-1214, unconditional) followed by the per-file loop.  The trailing
empty-folder cleanup (line 1362) is `clean_empty_unknown_album_folders`,
modelled separately. -/
def runExtract (args : Args) (orc : ArtOracles) (destDirExists : Bool) (initFs : DestFS)
    (files : List SrcFile) : RunState :=
  files.foldl (processFile args orc)
    { fs := initFs, processed := [], duplicate_count := 0, duplicates_list := [],
      actions := if destDirExists then [] else [.mkdirDest] }

/-- Trivial oracles for concrete runs. -/
def noArtOracles : ArtOracles := ⟨fun _ => false, fun _ _ _ => false⟩

/-- Claim C2: running extract-and-organize with the simulate flag set on a
fresh destination and a single tagged file still creates the destination,
artist and album directories and copies the file — the loop never consults
`args.simulate`, contradicting the `--simulate` help text ("Simulate
actions without making changes (dry run)"). -/
theorem simulate_still_mutates :
    (runExtract ⟨false, false, false, true, false⟩ noArtOracles false ⟨[], [], []⟩
        [⟨"song.mp3", ".mp3", ⟨"Song", "Artist", "Album"⟩⟩]).actions
      = [.mkdirDest, .mkdirArtist "Artist", .mkdirAlbum "Artist" "Album",
         .copyFile "song.mp3" "Artist" "Album" "Song.mp3"] ∧
    (runExtract ⟨false, false, false, true, false⟩ noArtOracles false ⟨[], [], []⟩
        [⟨"song.mp3", ".mp3", ⟨"Song", "Artist", "Album"⟩⟩]).actions ≠ [] := by
  refine ⟨by decide, by decide⟩

theorem dupCheckStep_processed (f : SrcFile) (st : RunState) :
    (dupCheckStep f st).processed = st.processed := by
  rw [dupCheckStep]
  split_ifs <;> rfl

theorem dupCheckStep_actions (f : SrcFile) (st : RunState) :
    (dupCheckStep f st).actions = st.actions := by
  rw [dupCheckStep]
  split_ifs <;> rfl

theorem dupCheckStep_fs (f : SrcFile) (st : RunState) :
    (dupCheckStep f st).fs = st.fs := by
  rw [dupCheckStep]
  split_ifs <;> rfl

theorem markProcessed_processed (f : SrcFile) (st : RunState) :
    (markProcessed f st).processed = st.processed ++ [fileSignature f] := rfl

theorem artistDirStep_processed (a : String) (st : RunState) :
    (artistDirStep a st).processed = st.processed := by
  rw [artistDirStep]
  split_ifs <;> rfl

theorem albumDirStep_processed (a b : String) (st : RunState) :
    (albumDirStep a b st).processed = st.processed := by
  rw [albumDirStep]
  split_ifs <;> rfl

theorem extractArtStep_processed (args : Args) (a b : String) (st : RunState) :
    (extractArtStep args a b st).processed = st.processed := by
  rw [extractArtStep]
  split_ifs <;> rfl

theorem copyMoveStep_processed (args : Args) (f : SrcFile) (a b n : String) (st : RunState) :
    (copyMoveStep args f a b n st).processed = st.processed := rfl

theorem attachStep_processed (args : Args) (orc : ArtOracles) (f : SrcFile)
    (a b n : String) (st : RunState) :
    (attachStep args orc f a b n st).processed = st.processed := by
  rw [attachStep]
  split_ifs <;> rfl

theorem processOrganize_processed (args : Args) (orc : ArtOracles) (f : SrcFile)
    (st2 : RunState) : (processOrganize args orc f st2).processed = st2.processed := by
  rw [processOrganize]
  split_ifs <;>
    simp only [artistDirStep_processed, albumDirStep_processed, extractArtStep_processed,
      copyMoveStep_processed, attachStep_processed]

theorem processFile_processed_mono (args : Args) (orc : ArtOracles) (st : RunState)
    (f : SrcFile) (s : String) (h : s ∈ st.processed) :
    s ∈ (processFile args orc st f).processed := by
  rw [processFile]
  split_ifs with h1 h2
  · rw [dupCheckStep_processed]
    exact h
  · rw [processOrganize_processed, markProcessed_processed, dupCheckStep_processed]
    exact List.mem_append_left _ h
  · exact h

theorem processFile_processed_self (args : Args) (orc : ArtOracles) (st : RunState)
    (f : SrcFile) (h : supportedFile f) :
    fileSignature f ∈ (processFile args orc st f).processed := by
  rw [processFile, if_neg (not_not_intro h)]
  split_ifs with h2
  · rw [dupCheckStep_processed]
    exact h2.1
  · rw [processOrganize_processed, markProcessed_processed, dupCheckStep_processed]
    exact List.mem_append_right _ (List.mem_singleton_self _)

theorem foldl_processed_mono (args : Args) (orc : ArtOracles) (files : List SrcFile)
    (st : RunState) (s : String) (h : s ∈ st.processed) :
    s ∈ (files.foldl (processFile args orc) st).processed := by
  induction files generalizing st with
  | nil => exact h
  | cons f files ih =>
    rw [List.foldl_cons]
    exact ih _ (processFile_processed_mono args orc st f s h)

theorem runExtract_processed_mem (args : Args) (orc : ArtOracles) (destDirExists : Bool)
    (initFs : DestFS) (pre : List SrcFile) (f1 : SrcFile) (mid : List SrcFile)
    (h1 : supportedFile f1) :
    fileSignature f1 ∈ (runExtract args orc destDirExists initFs (pre ++ f1 :: mid)).processed := by
  rw [runExtract, List.foldl_append, List.foldl_cons]
  exact foldl_processed_mono args orc mid _ _ (processFile_processed_self args orc _ f1 h1)

theorem markProcessed_duplicate_count (f : SrcFile) (st : RunState) :
    (markProcessed f st).duplicate_count = st.duplicate_count := rfl

theorem artistDirStep_duplicate_count (a : String) (st : RunState) :
    (artistDirStep a st).duplicate_count = st.duplicate_count := by
  rw [artistDirStep]
  split_ifs <;> rfl

theorem albumDirStep_duplicate_count (a b : String) (st : RunState) :
    (albumDirStep a b st).duplicate_count = st.duplicate_count := by
  rw [albumDirStep]
  split_ifs <;> rfl

theorem extractArtStep_duplicate_count (args : Args) (a b : String) (st : RunState) :
    (extractArtStep args a b st).duplicate_count = st.duplicate_count := by
  rw [extractArtStep]
  split_ifs <;> rfl

theorem copyMoveStep_duplicate_count (args : Args) (f : SrcFile) (a b n : String)
    (st : RunState) : (copyMoveStep args f a b n st).duplicate_count = st.duplicate_count := rfl

theorem attachStep_duplicate_count (args : Args) (orc : ArtOracles) (f : SrcFile)
    (a b n : String) (st : RunState) :
    (attachStep args orc f a b n st).duplicate_count = st.duplicate_count := by
  rw [attachStep]
  split_ifs <;> rfl

theorem processOrganize_duplicate_count (args : Args) (orc : ArtOracles) (f : SrcFile)
    (st2 : RunState) :
    (processOrganize args orc f st2).duplicate_count = st2.duplicate_count := by
  rw [processOrganize]
  split_ifs <;>
    simp only [artistDirStep_duplicate_count, albumDirStep_duplicate_count,
      extractArtStep_duplicate_count, copyMoveStep_duplicate_count, attachStep_duplicate_count]

theorem attachStep_actions_mono (args : Args) (orc : ArtOracles) (f : SrcFile)
    (a b n : String) (st : RunState) (x : FsAction) (h : x ∈ st.actions) :
    x ∈ (attachStep args orc f a b n st).actions := by
  rw [attachStep]
  split_ifs <;> simp [List.mem_append, h]

theorem copyMoveStep_act_mem (args : Args) (f : SrcFile) (a b n : String) (st : RunState) :
    (if args.move then FsAction.moveFile f.name a b n else FsAction.copyFile f.name a b n)
      ∈ (copyMoveStep args f a b n st).actions :=
  List.mem_append_right _ (List.mem_singleton_self _)

/-- A duplicate under no-force is counted, reported, and otherwise a no-op. -/
theorem processFile_duplicate (args : Args) (orc : ArtOracles) (st : RunState) (f : SrcFile)
    (hsupp : supportedFile f) (hmem : fileSignature f ∈ st.processed)
    (hforce : args.force = false) :
    processFile args orc st f
      = { st with duplicate_count := st.duplicate_count + 1,
                  duplicates_list := st.duplicates_list ++ [dupEntry f] } := by
  rw [processFile, if_neg (not_not_intro hsupp), if_pos ⟨hmem, by simp [hforce]⟩,
    dupCheckStep, if_pos hmem]

/-- A duplicate under force is still counted but not skipped: the copy or
move action is emitted. -/
theorem processFile_duplicate_force (args : Args) (orc : ArtOracles) (st : RunState)
    (f : SrcFile) (hsupp : supportedFile f) (hmem : fileSignature f ∈ st.processed)
    (hforce : args.force = true) :
    (processFile args orc st f).duplicate_count = st.duplicate_count + 1 ∧
    (if args.move then
        FsAction.moveFile f.name (sanitize_filename f.meta.artist)
          (sanitize_filename f.meta.album) (sanitize_filename f.meta.title ++ f.suffix)
      else
        FsAction.copyFile f.name (sanitize_filename f.meta.artist)
          (sanitize_filename f.meta.album) (sanitize_filename f.meta.title ++ f.suffix))
      ∈ (processFile args orc st f).actions := by
  rw [processFile, if_neg (not_not_intro hsupp),
    if_neg (by simp [hforce] : ¬(fileSignature f ∈ st.processed ∧ ¬args.force))]
  constructor
  · rw [processOrganize_duplicate_count, markProcessed_duplicate_count, dupCheckStep,
      if_pos hmem]
  · rw [processOrganize, if_neg (by simp [hforce]), if_neg (by simp [hforce])]
    exact attachStep_actions_mono args orc f _ _ _ _ _ (copyMoveStep_act_mem args f _ _ _ _)

/-- Claim C5: in one extract-and-organize run, when a later file produces
the same sanitized signature as an earlier supported file (regardless of
either file's name), the later occurrence is counted and reported as a
duplicate; without force it is skipped entirely (the state changes only by
the duplicate count and report), with force it is still counted but the
copy-or-move action is performed. -/
theorem duplicate_detection (args : Args) (orc : ArtOracles) (destDirExists : Bool)
    (initFs : DestFS) (pre mid : List SrcFile) (f1 f2 : SrcFile)
    (h1 : supportedFile f1) (h2 : supportedFile f2)
    (hsig : fileSignature f1 = fileSignature f2) :
    (args.force = false →
      processFile args orc (runExtract args orc destDirExists initFs (pre ++ f1 :: mid)) f2
        = { runExtract args orc destDirExists initFs (pre ++ f1 :: mid) with
            duplicate_count :=
              (runExtract args orc destDirExists initFs (pre ++ f1 :: mid)).duplicate_count + 1,
            duplicates_list :=
              (runExtract args orc destDirExists initFs (pre ++ f1 :: mid)).duplicates_list
                ++ [dupEntry f2] }) ∧
    (args.force = true →
      (processFile args orc (runExtract args orc destDirExists initFs (pre ++ f1 :: mid))
          f2).duplicate_count
        = (runExtract args orc destDirExists initFs (pre ++ f1 :: mid)).duplicate_count + 1 ∧
      (if args.move then
          FsAction.moveFile f2.name (sanitize_filename f2.meta.artist)
            (sanitize_filename f2.meta.album) (sanitize_filename f2.meta.title ++ f2.suffix)
        else
          FsAction.copyFile f2.name (sanitize_filename f2.meta.artist)
            (sanitize_filename f2.meta.album) (sanitize_filename f2.meta.title ++ f2.suffix))
        ∈ (processFile args orc (runExtract args orc destDirExists initFs (pre ++ f1 :: mid))
            f2).actions) := by
  have hmem : fileSignature f2
      ∈ (runExtract args orc destDirExists initFs (pre ++ f1 :: mid)).processed := by
    rw [← hsig]
    exact runExtract_processed_mem args orc destDirExists initFs pre f1 mid h1
  exact ⟨fun hforce => processFile_duplicate args orc _ f2 h2 hmem hforce,
    fun hforce => processFile_duplicate_force args orc _ f2 h2 hmem hforce⟩

def fW1 : SrcFile := ⟨"a.mp3", ".mp3", ⟨"T", "A", "B"⟩⟩

def fW2 : SrcFile := ⟨"b.mp3", ".mp3", ⟨"T", "A", "B"⟩⟩

/-- Claim C5 witness: two files with different names but the same metadata
signature; the second is counted, reported and skipped. -/
theorem duplicate_detection_witness :
    supportedFile fW1 ∧ supportedFile fW2 ∧ fileSignature fW1 = fileSignature fW2 ∧
    processFile ⟨false, false, false, false, false⟩ noArtOracles
        (runExtract ⟨false, false, false, false, false⟩ noArtOracles true ⟨[], [], []⟩
          ([] ++ fW1 :: [])) fW2
      = { runExtract ⟨false, false, false, false, false⟩ noArtOracles true ⟨[], [], []⟩
            ([] ++ fW1 :: []) with
          duplicate_count :=
            (runExtract ⟨false, false, false, false, false⟩ noArtOracles true ⟨[], [], []⟩
              ([] ++ fW1 :: [])).duplicate_count + 1,
          duplicates_list :=
            (runExtract ⟨false, false, false, false, false⟩ noArtOracles true ⟨[], [], []⟩
              ([] ++ fW1 :: [])).duplicates_list ++ [dupEntry fW2] } :=
  ⟨by decide, by decide, rfl,
    (duplicate_detection ⟨false, false, false, false, false⟩ noArtOracles true ⟨[], [], []⟩
      [] [] fW1 fW2 (by decide) (by decide) rfl).1 rfl⟩

/-! ## In-run resolver caches (CLI source lines 703-745, GUI source lines
620-745)

Only the lookup mechanics matter for claim C6: files reduce to their cache
keys (`f"{artist}|{title}"`), the resolver is the per-run outcome of
`search_album_info` for a key, and each catalog query is logged.  The CLI
cache stores plain strings; the GUI cache can store an explicit `None`
sentinel, so its values are `Option String`. -/

structure LookupState where
  cache : List (String × String)
  queries : List String
deriving Repr, DecidableEq

/-- Number of catalog queries issued for one key. -/
def countOcc (k : String) : List String → Nat
  | [] => 0
  | x :: t => (if x = k then 1 else 0) + countOcc k t

/-- `cache_key in album_cache` / `album_cache[cache_key]`. -/
def lookupAssoc : List (String × String) → String → Option String
  | [], _ => none
  | p :: t, k => if p.1 = k then some p.2 else lookupAssoc t k

/-- One file of the CLI loop (lines 730-745): answered from the cache when
the key is present; otherwise one query, cached only when it succeeded. -/
def cliLookupStep (resolver : String → Option String) (st : LookupState) (key : String) :
    LookupState :=
  match lookupAssoc st.cache key with
  | some _ => st
  | none =>
    match resolver key with
    | some album => { cache := st.cache ++ [(key, album)], queries := st.queries ++ [key] }
    | none => { st with queries := st.queries ++ [key] }

def cliLookupRun (resolver : String → Option String) (keys : List String) : LookupState :=
  keys.foldl (cliLookupStep resolver) ⟨[], []⟩

structure GuiLookupState where
  cache : List (String × Option String)
  queries : List String
deriving Repr, DecidableEq

def lookupAssocO : List (String × Option String) → String → Option (Option String)
  | [], _ => none
  | p :: t, k => if p.1 = k then some p.2 else lookupAssocO t k

/-- One key of the GUI prefetch loop (lines 670-683): skipped when already
cached (sentinel included); otherwise one query, and the result — a
sentinel `none` when nothing was found — is always cached. -/
def guiPrefetchStep (resolver : String → Option String) (st : GuiLookupState) (key : String) :
    GuiLookupState :=
  match lookupAssocO st.cache key with
  | some _ => st
  | none =>
    { cache := st.cache ++ [(key, resolver key)], queries := st.queries ++ [key] }

def guiPrefetch (resolver : String → Option String) (cache0 : List (String × Option String))
    (keys : List String) : GuiLookupState :=
  keys.foldl (guiPrefetchStep resolver) ⟨cache0, []⟩

/-- Claim C6, counterexample: in the CLI loop, a key whose first lookup
found nothing is queried again by the next file with the same key — no
sentinel is stored, so the claim's "never triggers a second catalog query"
fails. -/
theorem cli_cache_no_sentinel_counterexample :
    (cliLookupRun (fun _ => none) ["A|T", "A|T"]).queries = ["A|T", "A|T"] ∧
    ¬(countOcc "A|T" (cliLookupRun (fun _ => none) ["A|T", "A|T"]).queries ≤ 1) := by
  refine ⟨by decide, by decide⟩

theorem countOcc_append (k : String) (l1 l2 : List String) :
    countOcc k (l1 ++ l2) = countOcc k l1 + countOcc k l2 := by
  induction l1 with
  | nil => simp [countOcc]
  | cons x t ih =>
    show (if x = k then 1 else 0) + countOcc k (t ++ l2) = _
    rw [ih]
    show _ = (if x = k then 1 else 0) + countOcc k t + countOcc k l2
    omega

theorem countOcc_singleton_ne (k key : String) (h : key ≠ k) : countOcc k [key] = 0 := by
  simp [countOcc, h]

theorem lookupAssoc_append_ne (l : List (String × String)) (key v k : String)
    (hne : key ≠ k) : lookupAssoc (l ++ [(key, v)]) k = lookupAssoc l k := by
  induction l with
  | nil => simp [lookupAssoc, hne]
  | cons p t ih =>
    show (if p.1 = k then some p.2 else lookupAssoc (t ++ [(key, v)]) k) = _
    rw [lookupAssoc]
    split_ifs with h
    · rfl
    · exact ih

theorem lookupAssoc_append_self (l : List (String × String)) (k v : String) :
    (lookupAssoc (l ++ [(k, v)]) k).isSome = true := by
  induction l with
  | nil => simp [lookupAssoc]
  | cons p t ih =>
    show (if p.1 = k then some p.2 else lookupAssoc (t ++ [(k, v)]) k).isSome = true
    split_ifs with h
    · rfl
    · exact ih

theorem lookupAssocO_append_ne (l : List (String × Option String)) (key : String)
    (v : Option String) (k : String) (hne : key ≠ k) :
    lookupAssocO (l ++ [(key, v)]) k = lookupAssocO l k := by
  induction l with
  | nil => simp [lookupAssocO, hne]
  | cons p t ih =>
    show (if p.1 = k then some p.2 else lookupAssocO (t ++ [(key, v)]) k) = _
    rw [lookupAssocO]
    split_ifs with h
    · rfl
    · exact ih

theorem lookupAssocO_append_self (l : List (String × Option String)) (k : String)
    (v : Option String) : (lookupAssocO (l ++ [(k, v)]) k).isSome = true := by
  induction l with
  | nil => simp [lookupAssocO]
  | cons p t ih =>
    show (if p.1 = k then some p.2 else lookupAssocO (t ++ [(k, v)]) k).isSome = true
    split_ifs with h
    · rfl
    · exact ih

theorem lookupAssocO_append_mono (l : List (String × Option String))
    (x : String × Option String) (k : String) (h : (lookupAssocO l k).isSome = true) :
    (lookupAssocO (l ++ [x]) k).isSome = true := by
  induction l with
  | nil => simp [lookupAssocO] at h
  | cons p t ih =>
    rw [lookupAssocO] at h
    show (if p.1 = k then some p.2 else lookupAssocO (t ++ [x]) k).isSome = true
    split_ifs with hp
    · rfl
    · rw [if_neg hp] at h
      exact ih h

theorem cli_fold_some (resolver : String → Option String) (k a : String)
    (hres : resolver k = some a) (keys : List String) :
    ∀ st : LookupState,
      countOcc k st.queries ≤ 1 →
      (lookupAssoc st.cache k = none → countOcc k st.queries = 0) →
      countOcc k ((keys.foldl (cliLookupStep resolver) st).queries) ≤ 1 := by
  induction keys with
  | nil => intro st h1 _; exact h1
  | cons key keys ih =>
    intro st h1 h2
    rw [List.foldl_cons]
    cases hl : lookupAssoc st.cache key with
    | some v =>
      have hstep : cliLookupStep resolver st key = st := by rw [cliLookupStep, hl]
      rw [hstep]
      exact ih st h1 h2
    | none =>
      by_cases hkey : key = k
      · subst hkey
        have hc0 : countOcc key st.queries = 0 := h2 hl
        have hstep : cliLookupStep resolver st key
            = { cache := st.cache ++ [(key, a)], queries := st.queries ++ [key] } := by
          rw [cliLookupStep, hl, hres]
        rw [hstep]
        refine ih _ ?_ ?_
        · show countOcc key (st.queries ++ [key]) ≤ 1
          rw [countOcc_append, hc0]
          simp [countOcc]
        · intro hnone
          have hself := lookupAssoc_append_self st.cache key a
          rw [hnone] at hself
          simp at hself
      · cases hr : resolver key with
        | some b =>
          have hstep : cliLookupStep resolver st key
              = { cache := st.cache ++ [(key, b)], queries := st.queries ++ [key] } := by
            rw [cliLookupStep, hl, hr]
          rw [hstep]
          refine ih _ ?_ ?_
          · show countOcc k (st.queries ++ [key]) ≤ 1
            rw [countOcc_append, countOcc_singleton_ne k key hkey]
            omega
          · intro hnone
            rw [lookupAssoc_append_ne _ _ _ _ hkey] at hnone
            show countOcc k (st.queries ++ [key]) = 0
            rw [countOcc_append, countOcc_singleton_ne k key hkey, h2 hnone]
        | none =>
          have hstep : cliLookupStep resolver st key
              = { st with queries := st.queries ++ [key] } := by
            rw [cliLookupStep, hl, hr]
          rw [hstep]
          refine ih _ ?_ ?_
          · show countOcc k (st.queries ++ [key]) ≤ 1
            rw [countOcc_append, countOcc_singleton_ne k key hkey]
            omega
          · intro hnone
            show countOcc k (st.queries ++ [key]) = 0
            rw [countOcc_append, countOcc_singleton_ne k key hkey, h2 hnone]

theorem cli_fold_none (resolver : String → Option String) (k : String)
    (hres : resolver k = none) (keys : List String) :
    ∀ st : LookupState, lookupAssoc st.cache k = none →
      countOcc k ((keys.foldl (cliLookupStep resolver) st).queries)
        = countOcc k st.queries + countOcc k keys := by
  induction keys with
  | nil => intro st _; simp [countOcc]
  | cons key keys ih =>
    intro st hnone
    rw [List.foldl_cons]
    have hc : countOcc k (key :: keys) = (if key = k then 1 else 0) + countOcc k keys := rfl
    cases hl : lookupAssoc st.cache key with
    | some v =>
      have hkey : key ≠ k := by
        intro he
        rw [he, hnone] at hl
        exact Option.noConfusion hl
      have hstep : cliLookupStep resolver st key = st := by rw [cliLookupStep, hl]
      rw [hstep, ih st hnone, hc, if_neg hkey]
      omega
    | none =>
      by_cases hkey : key = k
      · subst hkey
        have hstep : cliLookupStep resolver st key
            = { st with queries := st.queries ++ [key] } := by
          rw [cliLookupStep, hl, hres]
        have hnone2 : lookupAssoc
            ({ st with queries := st.queries ++ [key] } : LookupState).cache key = none := hnone
        rw [hstep, ih _ hnone2, hc, if_pos rfl]
        have hq : ({ st with queries := st.queries ++ [key] } : LookupState).queries
            = st.queries ++ [key] := rfl
        rw [hq, countOcc_append]
        have h1 : countOcc key [key] = 1 := by simp [countOcc]
        omega
      · cases hr : resolver key with
        | some b =>
          have hstep : cliLookupStep resolver st key
              = { cache := st.cache ++ [(key, b)], queries := st.queries ++ [key] } := by
            rw [cliLookupStep, hl, hr]
          have hnone2 : lookupAssoc
              ({ cache := st.cache ++ [(key, b)], queries := st.queries ++ [key] }
                : LookupState).cache k = none := by
            show lookupAssoc (st.cache ++ [(key, b)]) k = none
            rw [lookupAssoc_append_ne _ _ _ _ hkey]
            exact hnone
          rw [hstep, ih _ hnone2, hc, if_neg hkey]
          have hq : ({ cache := st.cache ++ [(key, b)], queries := st.queries ++ [key] }
              : LookupState).queries = st.queries ++ [key] := rfl
          rw [hq, countOcc_append, countOcc_singleton_ne k key hkey]
          omega
        | none =>
          have hstep : cliLookupStep resolver st key
              = { st with queries := st.queries ++ [key] } := by
            rw [cliLookupStep, hl, hr]
          have hnone2 : lookupAssoc
              ({ st with queries := st.queries ++ [key] } : LookupState).cache k = none := hnone
          rw [hstep, ih _ hnone2, hc, if_neg hkey]
          have hq : ({ st with queries := st.queries ++ [key] } : LookupState).queries
              = st.queries ++ [key] := rfl
          rw [hq, countOcc_append, countOcc_singleton_ne k key hkey]
          omega

theorem gui_fold_count (resolver : String → Option String) (keys : List String) :
    ∀ (st : GuiLookupState) (k : String),
      countOcc k st.queries ≤ 1 →
      (lookupAssocO st.cache k = none → countOcc k st.queries = 0) →
      countOcc k ((keys.foldl (guiPrefetchStep resolver) st).queries) ≤ 1 := by
  induction keys with
  | nil => intro st k h1 _; exact h1
  | cons key keys ih =>
    intro st k h1 h2
    rw [List.foldl_cons]
    cases hl : lookupAssocO st.cache key with
    | some v =>
      have hstep : guiPrefetchStep resolver st key = st := by rw [guiPrefetchStep, hl]
      rw [hstep]
      exact ih st k h1 h2
    | none =>
      have hstep : guiPrefetchStep resolver st key
          = { cache := st.cache ++ [(key, resolver key)], queries := st.queries ++ [key] } := by
        rw [guiPrefetchStep, hl]
      rw [hstep]
      by_cases hkey : key = k
      · subst hkey
        have hc0 := h2 hl
        refine ih _ _ ?_ ?_
        · show countOcc key (st.queries ++ [key]) ≤ 1
          rw [countOcc_append, hc0]
          simp [countOcc]
        · intro hnone
          have hself := lookupAssocO_append_self st.cache key (resolver key)
          rw [hnone] at hself
          simp at hself
      · refine ih _ _ ?_ ?_
        · show countOcc k (st.queries ++ [key]) ≤ 1
          rw [countOcc_append, countOcc_singleton_ne k key hkey]
          omega
        · intro hnone
          rw [lookupAssocO_append_ne _ _ _ _ hkey] at hnone
          show countOcc k (st.queries ++ [key]) = 0
          rw [countOcc_append, countOcc_singleton_ne k key hkey, h2 hnone]

theorem gui_fold_cache_mono (resolver : String → Option String) (keys : List String) :
    ∀ (st : GuiLookupState) (k : String), (lookupAssocO st.cache k).isSome = true →
      (lookupAssocO ((keys.foldl (guiPrefetchStep resolver) st)).cache k).isSome = true := by
  induction keys with
  | nil => intro st k h; exact h
  | cons key keys ih =>
    intro st k h
    rw [List.foldl_cons]
    cases hl : lookupAssocO st.cache key with
    | some v =>
      have hstep : guiPrefetchStep resolver st key = st := by rw [guiPrefetchStep, hl]
      rw [hstep]
      exact ih st k h
    | none =>
      have hstep : guiPrefetchStep resolver st key
          = { cache := st.cache ++ [(key, resolver key)], queries := st.queries ++ [key] } := by
        rw [guiPrefetchStep, hl]
      rw [hstep]
      exact ih _ k (lookupAssocO_append_mono _ _ _ h)

theorem gui_fold_cached (resolver : String → Option String) (keys : List String) :
    ∀ (st : GuiLookupState) (k : String), k ∈ keys →
      (lookupAssocO ((keys.foldl (guiPrefetchStep resolver) st)).cache k).isSome = true := by
  induction keys with
  | nil => intro st k h; exact absurd h (List.not_mem_nil k)
  | cons key keys ih =>
    intro st k hk
    rw [List.foldl_cons]
    rcases List.mem_cons.mp hk with rfl | hk2
    · apply gui_fold_cache_mono
      cases hl : lookupAssocO st.cache k with
      | some v => rw [guiPrefetchStep, hl]; rw [hl]; rfl
      | none =>
        rw [guiPrefetchStep, hl]
        exact lookupAssocO_append_self st.cache k (resolver k)
    · exact ih _ _ hk2

/-- Claim C6 (amended): in the CLI `find_and_organize_unknowns` loop, only
successful resolutions are recorded, so a key that resolves is queried at
most once per run, but a key whose lookup finds nothing is not cached —
every later file with that key triggers another catalog query (one per
occurrence).  The explicit "not found" sentinel exists only in the GUI
prefetch (`find_unknown_albums_optimized`), which queries each key at most
once per run — found or not — and leaves every encountered key in the
cache, so the subsequent processing loop reads only the cache. -/
theorem lookup_cache_behaviour :
    (∀ (resolver : String → Option String) (keys : List String) (k a : String),
      resolver k = some a → countOcc k (cliLookupRun resolver keys).queries ≤ 1) ∧
    (∀ (resolver : String → Option String) (keys : List String) (k : String),
      resolver k = none →
        countOcc k (cliLookupRun resolver keys).queries = countOcc k keys) ∧
    (∀ (resolver : String → Option String) (cache0 : List (String × Option String))
      (keys : List String) (k : String),
      countOcc k (guiPrefetch resolver cache0 keys).queries ≤ 1) ∧
    (∀ (resolver : String → Option String) (cache0 : List (String × Option String))
      (keys : List String) (k : String), k ∈ keys →
      (lookupAssocO (guiPrefetch resolver cache0 keys).cache k).isSome = true) := by
  refine ⟨?_, ?_, ?_, ?_⟩
  · intro resolver keys k a hres
    exact cli_fold_some resolver k a hres keys ⟨[], []⟩ (Nat.zero_le 1) (fun _ => rfl)
  · intro resolver keys k hres
    have h := cli_fold_none resolver k hres keys ⟨[], []⟩ rfl
    rw [cliLookupRun, h]
    simp [countOcc]
  · intro resolver cache0 keys k
    exact gui_fold_count resolver keys ⟨cache0, []⟩ k (Nat.zero_le 1) (fun _ => rfl)
  · intro resolver cache0 keys k hk
    exact gui_fold_cached resolver keys ⟨cache0, []⟩ k hk

/-- Claim C6 witness: a resolving key is queried once across two files; an
unresolvable key is queried once per file; the GUI prefetch queries once
and caches the sentinel. -/
theorem lookup_cache_behaviour_witness :
    ((fun _ : String => some "X") "k" = some "X") ∧
    countOcc "k" (cliLookupRun (fun _ => some "X") ["k", "k"]).queries ≤ 1 ∧
    ((fun _ : String => (none : Option String)) "k" = none) ∧
    countOcc "k" (cliLookupRun (fun _ => none) ["k", "k"]).queries = countOcc "k" ["k", "k"] ∧
    countOcc "k" (guiPrefetch (fun _ => none) [] ["k", "k"]).queries ≤ 1 ∧
    (lookupAssocO (guiPrefetch (fun _ => none) [] ["k", "k"]).cache "k").isSome = true :=
  ⟨rfl, lookup_cache_behaviour.1 (fun _ => some "X") ["k", "k"] "k" "X" rfl,
    rfl, lookup_cache_behaviour.2.1 (fun _ => none) ["k", "k"] "k" rfl,
    lookup_cache_behaviour.2.2.1 (fun _ => none) [] ["k", "k"] "k",
    lookup_cache_behaviour.2.2.2 (fun _ => none) [] ["k", "k"] "k" (by decide)⟩

/-! ## clean_empty_unknown_album_folders (source lines 180-212)

The destination tree is modelled per artist entry: whether the entry is a
directory, whether an "Unknown Album" child exists and is a directory, and
its entry names.  `rmdir` succeeds exactly on a directory with no entries
at all; a directory whose only entries are hidden passes the source's
non-hidden emptiness check but makes `rmdir` raise, which the source
catches without incrementing the count. -/

structure ArtistEntry where
  isDir : Bool
  unknownExists : Bool
  unknownIsDir : Bool
  unknownEntries : List String
deriving Repr, DecidableEq

/-- `f.name.startswith('.')` of line 197. -/
def isHiddenName (n : String) : Bool := ['.'].isPrefixOf n.data

/-- The non-hidden entries of the Unknown-Album folder (line 197). -/
def nonHiddenCount (a : ArtistEntry) : Nat :=
  (a.unknownEntries.filter (fun n => ¬isHiddenName n)).length

/-- One artist folder of the cleanup loop: the count contribution and the
resulting entry. -/
def cleanStep (simulate : Bool) (a : ArtistEntry) : Nat × ArtistEntry :=
  if ¬a.isDir then (0, a)
  else if ¬(a.unknownExists ∧ a.unknownIsDir) then (0, a)
  else if nonHiddenCount a = 0 then
    if ¬simulate then
      if a.unknownEntries.isEmpty then (1, { a with unknownExists := false })
      else (0, a)
    else (1, a)
  else (0, a)

/-- `clean_empty_unknown_album_folders(base_dir, simulate)`: the returned
count together with the resulting tree. -/
def clean_empty_unknown_album_folders (base : List ArtistEntry) (simulate : Bool) :
    Nat × List ArtistEntry :=
  ((base.map (fun a => (cleanStep simulate a).1)).sum,
    base.map (fun a => (cleanStep simulate a).2))

/-- Condition of the claim: the folder exists and holds zero non-hidden
entries. -/
def claimRemovable (a : ArtistEntry) : Bool :=
  a.isDir && a.unknownExists && a.unknownIsDir && (nonHiddenCount a == 0)

/-- Condition under which the real `rmdir` succeeds: zero entries at all. -/
def trulyEmpty (a : ArtistEntry) : Bool :=
  a.isDir && a.unknownExists && a.unknownIsDir && a.unknownEntries.isEmpty

/-- An Unknown Album folder whose only entry is hidden. -/
def hiddenOnlyEntry : ArtistEntry := ⟨true, true, true, [".DS_Store"]⟩

/-- Claim C8, counterexample: in real (non-simulate) mode, a folder with
zero non-hidden entries but a hidden file is neither removed nor counted —
`rmdir` raises and the handler swallows it — refuting the claimed
"removes and increments iff zero non-hidden entries". -/
theorem clean_hidden_only_counterexample :
    nonHiddenCount hiddenOnlyEntry = 0 ∧
    (clean_empty_unknown_album_folders [hiddenOnlyEntry] false).1 = 0 ∧
    (clean_empty_unknown_album_folders [hiddenOnlyEntry] false).2 = [hiddenOnlyEntry] ∧
    (clean_empty_unknown_album_folders [hiddenOnlyEntry] true).1 = 1 := by
  refine ⟨by decide, by decide, by decide, by decide⟩

theorem cleanStep_simulate (a : ArtistEntry) :
    cleanStep true a = (if claimRemovable a then 1 else 0, a) := by
  rw [cleanStep, claimRemovable]
  rcases a with ⟨d, e, u, l⟩
  cases d <;> cases e <;> cases u <;>
    simp [nonHiddenCount] <;> split_ifs <;> simp_all

theorem cleanStep_real (a : ArtistEntry) :
    cleanStep false a
      = (if trulyEmpty a then 1 else 0,
         if trulyEmpty a then { a with unknownExists := false } else a) := by
  rw [cleanStep, trulyEmpty]
  rcases a with ⟨d, e, u, l⟩
  cases d <;> cases e <;> cases u <;> cases hl : l.isEmpty <;>
    simp_all [nonHiddenCount] <;> split_ifs <;> simp_all [List.isEmpty_iff]

/-- Claim C8 (amended): in simulate mode the cleanup removes nothing and
the count is exactly the number of placeholder folders with zero non-hidden
entries; in real mode a folder is removed and counted iff it has zero
entries at all — a placeholder folder whose only entries are hidden is
reported but its removal fails (swallowed `rmdir` error) and it is neither
removed nor counted. -/
theorem clean_empty_unknown_album_folders_spec (base : List ArtistEntry) :
    (clean_empty_unknown_album_folders base true).1 = (base.filter claimRemovable).length ∧
    (clean_empty_unknown_album_folders base true).2 = base ∧
    (clean_empty_unknown_album_folders base false).1 = (base.filter trulyEmpty).length ∧
    (clean_empty_unknown_album_folders base false).2
      = base.map (fun a => if trulyEmpty a then { a with unknownExists := false } else a) := by
  refine ⟨?_, ?_, ?_, ?_⟩
  · induction base with
    | nil => rfl
    | cons a t ih =>
      show ((a :: t).map (fun a => (cleanStep true a).1)).sum = _
      rw [List.map_cons, List.sum_cons, cleanStep_simulate a]
      rw [show (t.map (fun a => (cleanStep true a).1)).sum
          = (clean_empty_unknown_album_folders t true).1 from rfl, ih]
      by_cases h : claimRemovable a = true
      · simp [List.filter_cons, h]
        omega
      · simp [List.filter_cons, h]
  · induction base with
    | nil => rfl
    | cons a t ih =>
      show (a :: t).map (fun a => (cleanStep true a).2) = a :: t
      rw [List.map_cons, cleanStep_simulate a]
      rw [show t.map (fun a => (cleanStep true a).2)
          = (clean_empty_unknown_album_folders t true).2 from rfl, ih]
  · induction base with
    | nil => rfl
    | cons a t ih =>
      show ((a :: t).map (fun a => (cleanStep false a).1)).sum = _
      rw [List.map_cons, List.sum_cons, cleanStep_real a]
      rw [show (t.map (fun a => (cleanStep false a).1)).sum
          = (clean_empty_unknown_album_folders t false).1 from rfl, ih]
      by_cases h : trulyEmpty a = true
      · simp [List.filter_cons, h]
        omega
      · simp [List.filter_cons, h]
  · induction base with
    | nil => rfl
    | cons a t ih =>
      show (a :: t).map (fun a => (cleanStep false a).2) = _
      rw [List.map_cons, cleanStep_real a]
      rw [show t.map (fun a => (cleanStep false a).2)
          = (clean_empty_unknown_album_folders t false).2 from rfl, ih]
      rfl
